import Mathlib

/-!
Shallow embedding of `src/visualize.py` (tg-stories-viewers-profiler):
the Gap-Distribution Estimator, the Timeline Classifier and the Landmark
Positioner, together with theorems checking the specification's claims.

Modelling conventions:
* timestamps are integers (seconds); Python `datetime` subtraction followed
  by `int(...total_seconds())` is exact integer subtraction in this model;
* a CSV row whose `user_id` or `date` field failed to parse is a `RawRow`
  with `none` in that field (Python raises `KeyError`/`ValueError` and the
  row is skipped);
* a Python `dict[int, datetime]` built by insertion is an association list
  with last-write-wins update, preserving insertion order of keys;
* Python `list.sort()` (stable ascending sort) is `List.insertionSort (· ≤ ·)`:
  over a linear order the ascending sorted permutation of a list is unique,
  so any correct sort gives the same list;
* engagement values (floats 0, 0.5, 0.75, 1, all exactly representable) and
  fractional landmark positions are rationals;
* `SystemExit` is the `Except.error` branch of `buildDataset`.
-/

namespace TgStories

/-- One CSV row as `read_story_csv` receives it; a field is `none` when the
Python parse (`int(row["user_id"])` / `datetime.fromisoformat(row["date"])`)
would raise, making the row malformed. -/
structure RawRow where
  user_id : Option Int
  full_name : String
  username : String
  date : Option Int
deriving Repr, DecidableEq

/-- A successfully parsed row `(user_id, full_name, username, date)`. -/
structure Row where
  user_id : Int
  full_name : String
  username : String
  date : Int
deriving Repr, DecidableEq

/-- `read_story_csv` (src/visualize.py:62-81): keep the rows whose
`user_id` and `date` parse, skip malformed rows individually. -/
def readStoryCsv (rows : List RawRow) : List Row :=
  rows.filterMap fun r =>
    match r.user_id, r.date with
    | some u, some d => some ⟨u, r.full_name, r.username, d⟩
    | _, _ => none

/-- A story's `dict[user_id, view_datetime]`, as an insertion-ordered
association list with unique keys. -/
abbrev ViewMap := List (Int × Int)

/-- `user_to_time[uid] = view_dt`: Python dict assignment — an existing key
keeps its position and gets the new value, a new key is appended. -/
def dictInsert (m : ViewMap) (uid t : Int) : ViewMap :=
  if m.any (fun p => p.1 = uid) then
    m.map fun p => if p.1 = uid then (uid, t) else p
  else
    m ++ [(uid, t)]

/-- The loop `for uid, _fn, _un, view_dt in rows: user_to_time[uid] = view_dt`
(src/visualize.py:115-116). -/
def buildViews (rows : List Row) : ViewMap :=
  rows.foldl (fun m r => dictInsert m r.user_id r.date) []

/-- Python `dict.get`. -/
def dictGet (m : ViewMap) (uid : Int) : Option Int :=
  (m.find? (fun p => p.1 = uid)).map Prod.snd

/-- `dt.datetime.min.replace(tzinfo=dt.timezone.utc)` as seconds relative to
the Unix epoch: the sentinel creation time of a story with no valid rows. -/
def sentinelTime : Int := -62135596800

/-- Python `min(...)` over a nonempty list of values (0 for the empty list,
which `build_dataset` never reaches: the call is guarded). -/
def listMin (l : List Int) : Int :=
  match l with
  | [] => 0
  | x :: xs => xs.foldl min x

/-- `min(user_to_time.values())`. -/
def minValues (m : ViewMap) : Int :=
  listMin (m.map Prod.snd)

/-- The per-story block of `build_dataset` (src/visualize.py:112-125):
build the viewer map; an empty story keeps its slot with an empty map and
the sentinel creation time, otherwise creation time is the earliest view. -/
def processStory (rows : List RawRow) : ViewMap × Int :=
  let m := buildViews (readStoryCsv rows)
  if m = [] then ([], sentinelTime) else (m, minValues m)

/-- The Δt population pass (src/visualize.py:127-139): for each adjacent
story pair and each viewer present in both, the strictly positive gaps
between the two views, in iteration order. -/
def computeGaps (svs : List ViewMap) : List Int :=
  (svs.zip svs.tail).flatMap fun cn =>
    cn.1.filterMap fun p =>
      match dictGet cn.2 p.1 with
      | none => none
      | some nt => if nt - p.2 > 0 then some (nt - p.2) else none

/-- Python `gap_seconds.sort()`: ascending stable sort, modelled by
insertion sort (unique result over a linear order). -/
def sortGaps (l : List Int) : List Int :=
  l.insertionSort (· ≤ ·)

/-- The threshold computation (src/visualize.py:141-152): nearest-rank 20th
and 80th percentiles of the sorted gap population, or the fixed fallback
`(30, 60)` when the population is empty. -/
def computeThresholds (gaps : List Int) : Int × Int :=
  if gaps = [] then (30, 60)
  else
    let s := sortGaps gaps
    let n := s.length
    (s.getD (n * 20 / 100) 0, s.getD (n * 80 / 100) 0)

/-- The engagement classification (src/visualize.py:189-196), evaluated in
source order: no next view → 1; `gap ≤ threshold_skip` → 0.5;
`gap ≥ threshold_full` → 1; otherwise 0.75. -/
def classifyGap (skip full : Int) (gap : Option Int) : ℚ :=
  match gap with
  | none => 1
  | some g => if g ≤ skip then 1/2 else if g ≥ full then 1 else 3/4

/-- One iteration of the classification loop (src/visualize.py:170-198):
given a story's creation time, the target's view of it and the target's view
of the next story, produce `(engagement, latency)`. -/
def classifyStory (skip full : Int) (creation : Int) (view nxt : Option Int) :
    ℚ × Option Int :=
  match view with
  | none => (0, none)
  | some v =>
    let gap : Option Int := match nxt with
      | none => none
      | some nv => some (nv - v)
    (classifyGap skip full gap, some (v - creation))

/-- The target's view of the next story, read from the remaining zipped
entries: `none` at the last story. -/
def nextOfRest (rest : List (Int × Option Int)) : Option Int :=
  match rest with
  | [] => none
  | q :: _ => q.2

/-- The classification loop over `zip(creation_times, user_views)`
(src/visualize.py:170-198); the "next view" of entry `idx` is
`user_views[idx+1]` when it exists. -/
def classifyAll (skip full : Int) : List (Int × Option Int) → List (ℚ × Option Int)
  | [] => []
  | p :: rest =>
    classifyStory skip full p.1 p.2 (nextOfRest rest) :: classifyAll skip full rest

/-- The user-info scan (src/visualize.py:206-215). State: `user_full_name`
is `""` on entry of every outer iteration (the loop breaks as soon as it
becomes non-empty); `un` carries the current `user_username`. Per file, the
first row matching the target sets both variables; the outer loop stops only
when the full name just set is non-empty. -/
def lookupUserInfo (target : Int) : List (List RawRow) → String → String × String
  | [], un => ("", un)
  | csv :: rest, un =>
    match (readStoryCsv csv).find? (fun r => r.user_id = target) with
    | none => lookupUserInfo target rest un
    | some row =>
      if row.full_name = "" then lookupUserInfo target rest row.username
      else (row.full_name, row.username)

/-- Abstraction of `c.strftime("%Y-%m-%d %H:%M")` (rendering-only display
string, out of the specified core): an injective stand-in formatter. -/
def formatLabel (t : Int) : String :=
  toString t

/-- The tuple `build_dataset` returns (src/visualize.py:219). -/
structure Dataset where
  x_labels : List String
  y_values : List ℚ
  latencies : List (Option Int)
  full_name : String
  username : String
  creation_times : List Int
deriving Repr, DecidableEq

/-- The local `story_views` of `build_dataset` (src/visualize.py:109-125). -/
def storyViews (files : List (List RawRow)) : List ViewMap :=
  (files.map processStory).map Prod.fst

/-- The local `creation_times` of `build_dataset` (src/visualize.py:110-124). -/
def creationTimes (files : List (List RawRow)) : List Int :=
  (files.map processStory).map Prod.snd

/-- The pair `(threshold_skip, threshold_full)` (src/visualize.py:141-152). -/
def thresholds (files : List (List RawRow)) : Int × Int :=
  computeThresholds (computeGaps (storyViews files))

/-- The local `user_views` of `build_dataset` (src/visualize.py:161-164). -/
def userViews (files : List (List RawRow)) (target : Int) : List (Option Int) :=
  (storyViews files).map fun m => dictGet m target

/-- The classification loop's output, as `(engagement, latency)` pairs. -/
def classifiedPairs (files : List (List RawRow)) (target : Int) :
    List (ℚ × Option Int) :=
  classifyAll (thresholds files).1 (thresholds files).2
    ((creationTimes files).zip (userViews files target))

/-- `build_dataset` (src/visualize.py:84-219). Input: the ordered story CSV
files (each a list of raw rows) and the target user id. `SystemExit` on an
empty input is the `Except.error` branch. -/
def buildDataset (files : List (List RawRow)) (target : Int) :
    Except String Dataset :=
  if files = [] then .error "No CSV files found"
  else
    .ok ⟨(creationTimes files).map formatLabel,
         (classifiedPairs files target).map Prod.fst,
         (classifiedPairs files target).map Prod.snd,
         (lookupUserInfo target files "").1,
         (lookupUserInfo target files "").2,
         creationTimes files⟩

/-- The bracket scan of the landmark block (src/visualize.py:295-306):
first adjacent pair `(start, end)` with `start ≤ t ≤ end` yields
`idx + frac`; `i` is the index of the pair currently at the head. -/
def bracketScan (t : Int) : Nat → List Int → Option ℚ
  | _, [] => none
  | _, [_] => none
  | i, s :: e :: rest =>
    if s ≤ t ∧ t ≤ e then
      some (i + (if e = s then (1/2 : ℚ) else ((t - s : Int) : ℚ) / ((e - s : Int) : ℚ)))
    else
      bracketScan t (i + 1) (e :: rest)

/-- The landmark x-position (src/visualize.py:287-306): `-0.5` at or before
the first creation time, `N - 0.5` at or after the last, otherwise the first
bracketing adjacent pair with linear interpolation, with fallback `N - 0.5`.
(Junk values on an empty list; the caller guarantees nonemptiness.) -/
def landmarkPos (c : List Int) (t : Int) : ℚ :=
  if t ≤ c.getD 0 0 then -(1/2)
  else if t ≥ c.getD (c.length - 1) 0 then (c.length : ℚ) - 1/2
  else (bracketScan t 0 c).getD ((c.length : ℚ) - 1/2)

/-! Specification-side definitions, written from the spec's words, used to
compare the code's behavior against the described one. -/

/-- The spec's nearest-rank index `⌊n·0.20⌋` for the 20th percentile. -/
def specSkipIdx (n : ℕ) : ℕ :=
  Nat.floor ((n : ℚ) * (20 / 100))

/-- The spec's nearest-rank index `⌊n·0.80⌋` for the 80th percentile. -/
def specFullIdx (n : ℕ) : ℕ :=
  Nat.floor ((n : ℚ) * (80 / 100))

/-- Adjacent pair `(creation_times[i], creation_times[i+1])` brackets `t`. -/
def isBracket (c : List Int) (t : Int) (i : ℕ) : Prop :=
  i + 1 < c.length ∧ c.getD i 0 ≤ t ∧ t ≤ c.getD (i + 1) 0

/-- The spec's interpolation fraction for the bracket at index `i`:
`(t − start) / (end − start)`, and `0.5` when the pair is degenerate. -/
def fracAt (c : List Int) (t : Int) (i : ℕ) : ℚ :=
  if c.getD (i + 1) 0 = c.getD i 0 then 1/2
  else ((t - c.getD i 0 : Int) : ℚ) / ((c.getD (i + 1) 0 - c.getD i 0 : Int) : ℚ)

/-- Modelled from the spec: "the first occurrence where the viewer appears",
scanning story records in order (stories in sequence order, rows of a story
in file order). -/
def firstOccurrence (target : Int) : List (List RawRow) → Option Row
  | [] => none
  | csv :: rest =>
    match (readStoryCsv csv).find? (fun r => r.user_id = target) with
    | some row => some row
    | none => firstOccurrence target rest

/-- The per-story first matching rows for the target, in story order: the
only rows the user-info scan (src/visualize.py:206-215) ever examines —
within each story the inner loop breaks at the first row whose user id
matches. -/
def perStoryMatches (target : Int) (files : List (List RawRow)) : List Row :=
  files.filterMap fun csv => (readStoryCsv csv).find? (fun r => r.user_id = target)

/-- The row's display name is non-empty (the outer loop's stop test,
src/visualize.py:214). -/
def hasName (r : Row) : Bool :=
  !(r.full_name == "")

/-- Shorthand for a well-formed raw row. -/
def rr (u : Int) (fn un : String) (d : Int) : RawRow :=
  ⟨some u, fn, un, some d⟩

/-- The spec's concrete scenario (§8): three stories created at 0, 100 and
500 seconds; the target (user 1) views story 0 at 10 and story 1 at 105;
users 2, 3, 4 view exactly one story each, pinning the creation times. The
single population gap is `105 − 10 = 95`. -/
def scenC1 : List (List RawRow) :=
  [[rr 2 "A" "a" 0, rr 1 "U" "u" 10],
   [rr 3 "B" "b" 100, rr 1 "U" "u" 105],
   [rr 4 "C" "c" 500]]

/-- A two-story input whose target (user 1) has a zero inter-story gap
(views both stories at the same instant) while user 2 contributes the
positive population gap `40`. -/
def filesZeroGap : List (List RawRow) :=
  [[rr 1 "U" "u" 100, rr 2 "A" "a" 0],
   [rr 1 "U" "u" 100, rr 2 "A" "a" 40]]

/-- Input with the target (user 1) appearing first with an empty display
name, then with a non-empty one. -/
def filesEmptyName : List (List RawRow) :=
  [[rr 1 "" "u1" 0], [rr 1 "Alice" "u2" 5]]

/-- The target's view of the story after position `idx`, as the
classification loop reads it (src/visualize.py:182-186). -/
def nextView (l : List (Int × Option Int)) (idx : ℕ) : Option Int :=
  match l[idx + 1]? with
  | some q => q.2
  | none => none

/-! Helper lemmas. -/

lemma sortGaps_sorted (l : List Int) : List.Sorted (· ≤ ·) (sortGaps l) :=
  List.sorted_insertionSort _ l

lemma sortGaps_perm (l : List Int) : (sortGaps l).Perm l :=
  List.perm_insertionSort _ l

lemma length_sortGaps (l : List Int) : (sortGaps l).length = l.length :=
  List.length_insertionSort _ l

lemma specSkipIdx_eq (n : ℕ) : specSkipIdx n = n * 20 / 100 := by
  unfold specSkipIdx
  rw [show ((n : ℚ) * (20 / 100)) = ((n * 20 : ℕ) : ℚ) / ((100 : ℕ) : ℚ) by
    push_cast; ring]
  exact Nat.floor_div_nat _ _

lemma specFullIdx_eq (n : ℕ) : specFullIdx n = n * 80 / 100 := by
  unfold specFullIdx
  rw [show ((n : ℚ) * (80 / 100)) = ((n * 80 : ℕ) : ℚ) / ((100 : ℕ) : ℚ) by
    push_cast; ring]
  exact Nat.floor_div_nat _ _

lemma sorted_getD_mono {l : List Int} (h : List.Sorted (· ≤ ·) l) {i j : ℕ}
    (hij : i ≤ j) (hj : j < l.length) : l.getD i 0 ≤ l.getD j 0 := by
  have hi : i < l.length := lt_of_le_of_lt hij hj
  rw [List.getD_eq_getElem l 0 hi, List.getD_eq_getElem l 0 hj]
  exact h.rel_get_of_le (a := ⟨i, hi⟩) (b := ⟨j, hj⟩) hij

lemma lookupUserInfo_not_found {target : Int} :
    ∀ (files : List (List RawRow)) (un : String),
      (∀ f ∈ files, ∀ row ∈ readStoryCsv f, ¬ row.user_id = target) →
      lookupUserInfo target files un = ("", un) := by
  intro files
  induction files with
  | nil => intro un _; rfl
  | cons csv rest ih =>
    intro un h
    have hfind : (readStoryCsv csv).find? (fun r => r.user_id = target) = none := by
      rw [List.find?_eq_none]
      intro row hrow
      simpa using h csv (by simp) row hrow
    rw [lookupUserInfo, hfind]
    exact ih un fun f hf => h f (by simp [hf])

lemma getD_getLast?_cons (x d : String) (xs : List String) :
    (x :: xs).getLast?.getD d = xs.getLast?.getD x := by
  cases xs with
  | nil => rfl
  | cons y ys =>
    rw [List.getLast?_cons_cons]
    have h : (y :: ys).getLast?.isSome := by
      rw [List.getLast?_isSome]
      simp
    obtain ⟨z, hz⟩ := Option.isSome_iff_exists.mp h
    rw [hz]
    rfl

/-- Full characterization of the user-info scan: the result is the first
per-story first-matching row with a non-empty display name; when none
exists, the display name stays empty and the handle is the last matching
row's username (or the initial value when the viewer never matches). -/
lemma lookupUserInfo_spec (target : Int) :
    ∀ (files : List (List RawRow)) (un : String),
      lookupUserInfo target files un =
        match (perStoryMatches target files).find? hasName with
        | some row => (row.full_name, row.username)
        | none =>
          ("", (((perStoryMatches target files).map Row.username).getLast?).getD un) := by
  intro files
  induction files with
  | nil => intro un; rfl
  | cons csv rest ih =>
    intro un
    rw [lookupUserInfo]
    cases hf : (readStoryCsv csv).find? (fun r => r.user_id = target) with
    | none =>
      have hps : perStoryMatches target (csv :: rest) =
          perStoryMatches target rest := by
        simp [perStoryMatches, List.filterMap_cons, hf]
      rw [hps]
      exact ih un
    | some row =>
      have hps : perStoryMatches target (csv :: rest) =
          row :: perStoryMatches target rest := by
        simp [perStoryMatches, List.filterMap_cons, hf]
      rw [hps]
      by_cases hname : row.full_name = ""
      · show (if row.full_name = "" then
            lookupUserInfo target rest row.username
          else (row.full_name, row.username)) = _
        rw [if_pos hname, ih row.username,
          List.find?_cons_of_neg _ (by simp [hasName, hname])]
        cases hfind : (perStoryMatches target rest).find? hasName with
        | some r2 => rfl
        | none =>
          rw [List.map_cons, getD_getLast?_cons]
      · show (if row.full_name = "" then
            lookupUserInfo target rest row.username
          else (row.full_name, row.username)) = _
        rw [if_neg hname,
          List.find?_cons_of_pos _ (by simp [hasName, hname])]

lemma buildDataset_ok {files : List (List RawRow)} {target : Int} {d : Dataset}
    (h : buildDataset files target = Except.ok d) :
    d = ⟨(creationTimes files).map formatLabel,
         (classifiedPairs files target).map Prod.fst,
         (classifiedPairs files target).map Prod.snd,
         (lookupUserInfo target files "").1,
         (lookupUserInfo target files "").2,
         creationTimes files⟩ := by
  unfold buildDataset at h
  split at h
  · cases h
  · cases h
    rfl

lemma length_classifyAll (skip full : Int) :
    ∀ l : List (Int × Option Int), (classifyAll skip full l).length = l.length
  | [] => rfl
  | (c, v) :: rest => by
    rw [classifyAll]
    simp [length_classifyAll skip full rest]

lemma classifyAll_mem {skip full : Int} :
    ∀ {l : List (Int × Option Int)} {q : ℚ × Option Int},
      q ∈ classifyAll skip full l →
      ∃ c v n, q = classifyStory skip full c v n := by
  intro l
  induction l with
  | nil =>
    intro q h
    rw [classifyAll] at h
    cases h
  | cons hd tl ih =>
    intro q h
    obtain ⟨c, v⟩ := hd
    rw [classifyAll] at h
    rcases List.mem_cons.mp h with h | h
    · exact ⟨c, v, _, h⟩
    · exact ih h

lemma classifyGap_mem (skip full : Int) (gap : Option Int) :
    classifyGap skip full gap = 1/2 ∨ classifyGap skip full gap = 3/4 ∨
      classifyGap skip full gap = 1 := by
  cases gap with
  | none => exact Or.inr (Or.inr rfl)
  | some g =>
    rw [classifyGap]
    split
    · exact Or.inl rfl
    · split
      · exact Or.inr (Or.inr rfl)
      · exact Or.inr (Or.inl rfl)

lemma classifyGap_ne_zero (skip full : Int) (gap : Option Int) :
    ¬ classifyGap skip full gap = 0 := by
  rcases classifyGap_mem skip full gap with h | h | h <;> rw [h] <;> norm_num

lemma classifyStory_spec (skip full c : Int) (v n : Option Int) :
    ((classifyStory skip full c v n).1 = 0 ∨
     (classifyStory skip full c v n).1 = 1/2 ∨
     (classifyStory skip full c v n).1 = 3/4 ∨
     (classifyStory skip full c v n).1 = 1) ∧
    ((classifyStory skip full c v n).2 = none ↔
     (classifyStory skip full c v n).1 = 0) := by
  cases v with
  | none => exact ⟨Or.inl rfl, by simp [classifyStory]⟩
  | some x =>
    constructor
    · rcases classifyGap_mem skip full
        (match n with | none => none | some nv => some (nv - x)) with h | h | h
      · exact Or.inr (Or.inl h)
      · exact Or.inr (Or.inr (Or.inl h))
      · exact Or.inr (Or.inr (Or.inr h))
    · show (some (x - c) = none ↔ _)
      simp only [reduceCtorEq, false_iff]
      exact classifyGap_ne_zero skip full _

lemma foldl_min_le_init : ∀ (xs : List Int) (a : Int), xs.foldl min a ≤ a
  | [], a => le_refl a
  | x :: xs, a =>
    le_trans (foldl_min_le_init xs (min a x)) (min_le_left a x)

lemma foldl_min_le_mem : ∀ (xs : List Int) (a x : Int), x ∈ xs → xs.foldl min a ≤ x
  | [], _, _, h => absurd h (List.not_mem_nil _)
  | y :: ys, a, x, h => by
    rcases List.mem_cons.mp h with rfl | h
    · exact le_trans (foldl_min_le_init ys (min a x)) (min_le_right a x)
    · exact foldl_min_le_mem ys (min a y) x h

lemma listMin_le {l : List Int} {x : Int} (h : x ∈ l) : listMin l ≤ x := by
  cases l with
  | nil => cases h
  | cons a xs =>
    rcases List.mem_cons.mp h with rfl | h
    · exact foldl_min_le_init xs x
    · exact foldl_min_le_mem xs a x h

lemma dictGet_mem_values {m : ViewMap} {uid v : Int} (h : dictGet m uid = some v) :
    v ∈ m.map Prod.snd := by
  unfold dictGet at h
  cases hf : m.find? (fun p => p.1 = uid) with
  | none =>
    rw [hf] at h
    cases h
  | some p =>
    rw [hf] at h
    cases h
    exact List.mem_map_of_mem Prod.snd (List.mem_of_find?_eq_some hf)

lemma processStory_creation_le {f : List RawRow} {uid v : Int}
    (h : dictGet (processStory f).1 uid = some v) : (processStory f).2 ≤ v := by
  unfold processStory at h ⊢
  by_cases hemp : buildViews (readStoryCsv f) = []
  · rw [hemp] at h
    simp [dictGet] at h
  · simp only [if_neg hemp] at h ⊢
    exact listMin_le (dictGet_mem_values h)

lemma userViews_eq (files : List (List RawRow)) (target : Int) :
    userViews files target =
      (files.map processStory).map (fun st => dictGet st.1 target) := by
  unfold userViews storyViews
  rw [List.map_map]
  rfl

lemma zipPairs_eq (files : List (List RawRow)) (target : Int) :
    (creationTimes files).zip (userViews files target) =
      (files.map processStory).map
        (fun st => (st.2, dictGet st.1 target)) := by
  rw [userViews_eq]
  exact List.zip_map' Prod.snd (fun st => dictGet st.1 target)
    (files.map processStory)

lemma classifyAll_latency_nonneg (skip full : Int) :
    ∀ l : List (Int × Option Int),
      (∀ p ∈ l, ∀ x : Int, p.2 = some x → p.1 ≤ x) →
      ∀ q ∈ classifyAll skip full l, ∀ L : Int, q.2 = some L → 0 ≤ L := by
  intro l
  induction l with
  | nil =>
    intro _ q hq
    rw [classifyAll] at hq
    cases hq
  | cons hd tl ih =>
    intro hpre q hq L hL
    obtain ⟨c, v⟩ := hd
    rw [classifyAll] at hq
    rcases List.mem_cons.mp hq with rfl | hq
    · cases v with
      | none => simp [classifyStory] at hL
      | some x =>
        have hc : c ≤ x := hpre (c, some x) (by simp) x rfl
        simp only [classifyStory, Option.some.injEq] at hL
        omega
    · exact ih (fun p hp => hpre p (List.mem_cons_of_mem _ hp)) q hq L hL

lemma computeGaps_pos {svs : List ViewMap} {g : Int}
    (hg : g ∈ computeGaps svs) : 0 < g := by
  unfold computeGaps at hg
  rw [List.mem_flatMap] at hg
  obtain ⟨cn, _, hmem⟩ := hg
  rw [List.mem_filterMap] at hmem
  obtain ⟨p, _, hp⟩ := hmem
  split at hp
  · cases hp
  · split at hp
    · cases hp
      omega
    · cases hp

lemma computeThresholds_mem {gaps : List Int} (h : ¬ gaps = []) :
    (computeThresholds gaps).1 ∈ gaps ∧ (computeThresholds gaps).2 ∈ gaps := by
  have hn : 0 < (sortGaps gaps).length := by
    rw [length_sortGaps]
    exact List.length_pos.mpr h
  unfold computeThresholds
  rw [if_neg h]
  constructor
  · have hlt : (sortGaps gaps).length * 20 / 100 < (sortGaps gaps).length := by
      rw [Nat.div_lt_iff_lt_mul (by norm_num)]
      omega
    show (sortGaps gaps).getD _ 0 ∈ gaps
    rw [List.getD_eq_getElem _ _ hlt]
    exact (sortGaps_perm gaps).mem_iff.mp (List.getElem_mem hlt)
  · have hlt : (sortGaps gaps).length * 80 / 100 < (sortGaps gaps).length := by
      rw [Nat.div_lt_iff_lt_mul (by norm_num)]
      omega
    show (sortGaps gaps).getD _ 0 ∈ gaps
    rw [List.getD_eq_getElem _ _ hlt]
    exact (sortGaps_perm gaps).mem_iff.mp (List.getElem_mem hlt)

lemma thresholds_skip_pos (files : List (List RawRow)) :
    0 < (thresholds files).1 := by
  unfold thresholds
  by_cases h : computeGaps (storyViews files) = []
  · rw [h]
    norm_num [computeThresholds]
  · exact computeGaps_pos (computeThresholds_mem h).1

lemma nextView_cons_succ (hd : Int × Option Int)
    (tl : List (Int × Option Int)) (n : ℕ) :
    nextView (hd :: tl) (n + 1) = nextView tl n := by
  unfold nextView
  rw [List.getElem?_cons_succ]

lemma nextView_cons_zero (hd : Int × Option Int)
    (tl : List (Int × Option Int)) :
    nextView (hd :: tl) 0 = nextOfRest tl := by
  unfold nextView nextOfRest
  cases tl <;> simp

lemma classifyAll_getElem? (skip full : Int) :
    ∀ (l : List (Int × Option Int)) (idx : ℕ) (p : Int × Option Int),
      l[idx]? = some p →
      (classifyAll skip full l)[idx]? =
        some (classifyStory skip full p.1 p.2 (nextView l idx)) := by
  intro l
  induction l with
  | nil =>
    intro idx p h
    simp at h
  | cons hd tl ih =>
    intro idx p h
    cases idx with
    | zero =>
      rw [List.getElem?_cons_zero] at h
      cases h
      rw [classifyAll, List.getElem?_cons_zero, nextView_cons_zero]
    | succ n =>
      rw [List.getElem?_cons_succ] at h
      rw [classifyAll, List.getElem?_cons_succ, ih n p h, nextView_cons_succ]

/-! Theorems for the claims. -/

/-- C2: the Gap-Distribution Estimator: a non-empty population of size `n`
yields the ascending-sorted elements at nearest-rank indices `⌊n·0.20⌋` and
`⌊n·0.80⌋`; an empty population yields the fixed defaults `(30, 60)` without
failing. -/
theorem C2_percentile_thresholds : ∀ gaps : List Int,
    (gaps = [] → computeThresholds gaps = (30, 60)) ∧
    (¬ gaps = [] →
      List.Sorted (· ≤ ·) (sortGaps gaps) ∧ (sortGaps gaps).Perm gaps ∧
      computeThresholds gaps =
        ((sortGaps gaps).getD (specSkipIdx gaps.length) 0,
         (sortGaps gaps).getD (specFullIdx gaps.length) 0)) := by
  intro gaps
  constructor
  · intro h
    simp [computeThresholds, h]
  · intro h
    refine ⟨sortGaps_sorted gaps, sortGaps_perm gaps, ?_⟩
    simp only [computeThresholds, if_neg h, length_sortGaps,
      specSkipIdx_eq, specFullIdx_eq]

/-- Witness for C2 at the populations `[95]` and `[]`. -/
theorem C2_percentile_thresholds_witness :
    computeThresholds [95] =
      ((sortGaps [95]).getD (specSkipIdx 1) 0,
       (sortGaps [95]).getD (specFullIdx 1) 0) ∧
    computeThresholds [] = (30, 60) :=
  ⟨((C2_percentile_thresholds [95]).2 (by decide)).2.2,
   (C2_percentile_thresholds []).1 rfl⟩

/-- C6: for every input population, `skip_threshold ≤ full_threshold`. -/
theorem C6_skip_le_full (gaps : List Int) :
    (computeThresholds gaps).1 ≤ (computeThresholds gaps).2 := by
  by_cases h : gaps = []
  · simp [computeThresholds, h]
  · unfold computeThresholds
    rw [if_neg h]
    apply sorted_getD_mono (sortGaps_sorted gaps)
    · exact Nat.div_le_div_right (Nat.mul_le_mul_left _ (by norm_num))
    · have hn : 0 < (sortGaps gaps).length := by
        rw [length_sortGaps]
        exact List.length_pos.mpr h
      rw [Nat.div_lt_iff_lt_mul (by norm_num)]
      omega

/-- C7: building the dataset hard-fails exactly when there are no input
stories; and a malformed row (unparseable id or timestamp) is dropped
individually, leaving the rest of the story's rows intact. -/
theorem C7_fail_iff_empty : ∀ (files : List (List RawRow)) (target : Int),
    ((∃ e, buildDataset files target = Except.error e) ↔ files = []) ∧
    (∀ (r : RawRow) (rows : List RawRow), r.user_id = none ∨ r.date = none →
      readStoryCsv (r :: rows) = readStoryCsv rows) := by
  intro files target
  constructor
  · cases files with
    | nil => simp [buildDataset]
    | cons f fs =>
      simp [buildDataset]
  · intro r rows h
    obtain ⟨u, fn, un, d⟩ := r
    rcases h with h | h <;> simp only at h <;> subst h
    · rfl
    · cases u <;> rfl

/-- Witness for C7: a row with an unparseable timestamp is dropped. -/
theorem C7_fail_iff_empty_witness :
    readStoryCsv [⟨some 7, "X", "x", none⟩] = readStoryCsv [] :=
  (C7_fail_iff_empty [] 0).2 ⟨some 7, "X", "x", none⟩ [] (Or.inr rfl)

/-- C1 counterexample: in the spec's one-gap scenario the thresholds tie at
95 and the target's story-0 gap is 95, but the code classifies story 0 as
0.5 (swiped past), not 1: the `gap ≤ skip_threshold` branch is evaluated
before `gap ≥ full_threshold`, so ties go to the swiped-past outcome. -/
theorem C1_counterexample :
    thresholds scenC1 = (95, 95) ∧
    (buildDataset scenC1 1).toOption.map Dataset.y_values =
      some [1/2, 1, 0] ∧
    ¬ (buildDataset scenC1 1).toOption.map Dataset.y_values =
      some [1, 1, 0] := by
  have h : (buildDataset scenC1 1).toOption.map Dataset.y_values =
      some [1/2, 1, 0] := rfl
  refine ⟨by decide, h, ?_⟩
  rw [h]
  intro hc
  have : (1/2 : ℚ) = 1 := by
    have := List.head_eq_of_cons_eq (Option.some.inj hc)
    exact this
  norm_num at this

/-- C1 (amended): when the target's gap equals both thresholds the tie is
resolved in favor of the swiped-past outcome — engagement 0.5 — because the
skip comparison is evaluated first; in the one-gap scenario story 0 gets
engagement 0.5 with latency 10. -/
theorem C1_tie_swiped_past :
    (∀ skip full g : Int, g = skip → g = full →
      classifyGap skip full (some g) = 1/2) ∧
    (buildDataset scenC1 1).toOption.map
      (fun d => (d.y_values[0]?, d.latencies[0]?)) =
      some (some (1/2), some (some 10)) := by
  constructor
  · intro skip full g hs hf
    subst hs
    simp [classifyGap]
  · rfl

/-- Witness for C1 (amended) at the scenario's tied thresholds. -/
theorem C1_tie_swiped_past_witness : classifyGap 95 95 (some 95) = 1/2 :=
  C1_tie_swiped_past.1 95 95 95 rfl rfl

/-- C9 counterexample: the viewer's first occurrence (story 0) carries an
empty display name, and the code moves on and returns the second
occurrence's name and handle instead of the first occurrence's. -/
theorem C9_counterexample :
    firstOccurrence 1 filesEmptyName = some ⟨1, "", "u1", 0⟩ ∧
    lookupUserInfo 1 filesEmptyName "" = ("Alice", "u2") ∧
    ¬ lookupUserInfo 1 filesEmptyName "" = ("", "u1") := by
  refine ⟨by decide, by decide, by decide⟩

/-- C9 (amended): the resolver scans stories in order, looking at the first
matching row of each story, and stops at the first such row with a
non-empty display name, which supplies both the name and the handle;
matching rows with an empty display name only update the handle and the
scan continues, so when no matching row has a non-empty name the display
name stays empty and the handle is the last matching row's username; if
the viewer never appears in any story, both are returned as empty
strings. -/
theorem C9_name_lookup :
    (∀ (files : List (List RawRow)) (target : Int),
      (∀ f ∈ files, ∀ row ∈ readStoryCsv f, ¬ row.user_id = target) →
      lookupUserInfo target files "" = ("", "")) ∧
    (∀ (files : List (List RawRow)) (target : Int) (row : Row),
      (perStoryMatches target files).find? hasName = some row →
      lookupUserInfo target files "" = (row.full_name, row.username)) ∧
    (∀ (files : List (List RawRow)) (target : Int),
      (perStoryMatches target files).find? hasName = none →
      lookupUserInfo target files "" =
        ("", (((perStoryMatches target files).map Row.username).getLast?).getD "")) := by
  refine ⟨fun files _ h => lookupUserInfo_not_found files "" h, ?_, ?_⟩
  · intro files target row h
    rw [lookupUserInfo_spec target files "", h]
  · intro files target h
    rw [lookupUserInfo_spec target files "", h]

/-- Witness for C9 (amended): a never-appearing viewer; a first occurrence
with an empty display name that is skipped in favor of the second; and an
input where every occurrence has an empty display name, so only the handle
is carried forward. -/
theorem C9_name_lookup_witness :
    lookupUserInfo 5 filesEmptyName "" = ("", "") ∧
    lookupUserInfo 1 filesEmptyName "" = ("Alice", "u2") ∧
    lookupUserInfo 1 [[rr 1 "" "u1" 0], [rr 1 "" "u3" 7]] "" = ("", "u3") :=
  ⟨C9_name_lookup.1 filesEmptyName 5 (by decide),
   C9_name_lookup.2.1 filesEmptyName 1 ⟨1, "Alice", "u2", 5⟩ (by decide),
   C9_name_lookup.2.2 [[rr 1 "" "u1" 0], [rr 1 "" "u3" 7]] 1 (by decide)⟩

/-- C4: for every input and target, each story in the classified output has
exactly one engagement value, drawn from `{0, 0.5, 0.75, 1}`, and its
latency is `None` exactly when its engagement is `0`. -/
theorem C4_engagement_partition (files : List (List RawRow)) (target : Int)
    (d : Dataset) (h : buildDataset files target = Except.ok d) :
    List.Forall₂
      (fun y l => (y = 0 ∨ y = 1/2 ∨ y = 3/4 ∨ y = 1) ∧ (l = none ↔ y = 0))
      d.y_values d.latencies := by
  rw [buildDataset_ok h]
  show List.Forall₂ _ ((classifiedPairs files target).map Prod.fst)
    ((classifiedPairs files target).map Prod.snd)
  rw [List.forall₂_map_left_iff, List.forall₂_map_right_iff]
  rw [List.forall₂_same]
  intro q hq
  obtain ⟨c, v, n, rfl⟩ := classifyAll_mem hq
  exact classifyStory_spec _ _ _ _ _

/-- Witness for C4 at the spec's one-gap scenario. -/
theorem C4_engagement_partition_witness :
    buildDataset scenC1 1 =
      Except.ok ⟨["0", "100", "500"], [1/2, 1, 0],
        [some 10, some 5, none], "U", "u", [0, 100, 500]⟩ ∧
    List.Forall₂
      (fun (y : ℚ) (l : Option Int) =>
        (y = 0 ∨ y = 1/2 ∨ y = 3/4 ∨ y = 1) ∧ (l = none ↔ y = 0))
      [1/2, 1, 0] [some 10, some 5, none] :=
  ⟨rfl, C4_engagement_partition scenC1 1
    ⟨["0", "100", "500"], [1/2, 1, 0], [some 10, some 5, none], "U", "u",
      [0, 100, 500]⟩ rfl⟩

/-- C5: whenever a story's latency is defined, it is non-negative: the
creation time is the minimum view timestamp over all the story's viewers
and the target's view is one of those timestamps. -/
theorem C5_latency_nonneg (files : List (List RawRow)) (target : Int)
    (d : Dataset) (h : buildDataset files target = Except.ok d) :
    ∀ (idx : ℕ) (L : Int), d.latencies[idx]? = some (some L) → 0 ≤ L := by
  intro idx L hL
  rw [buildDataset_ok h] at hL
  have hL' : ((classifiedPairs files target).map Prod.snd)[idx]? =
      some (some L) := hL
  rw [List.getElem?_map] at hL'
  cases hq : (classifiedPairs files target)[idx]? with
  | none =>
    rw [hq] at hL'
    cases hL'
  | some q =>
    rw [hq] at hL'
    have hq2 : q.2 = some L := Option.some.inj hL'
    have hqmem : q ∈ classifiedPairs files target := List.getElem?_mem hq
    refine classifyAll_latency_nonneg _ _ _ ?_ q hqmem L hq2
    rw [zipPairs_eq]
    intro p hp x hx
    obtain ⟨st, hst, rfl⟩ := List.mem_map.mp hp
    obtain ⟨f, _, rfl⟩ := List.mem_map.mp hst
    exact processStory_creation_le hx

/-- Witness for C5: in the scenario, story 0 has latency `10 ≥ 0`. -/
theorem C5_latency_nonneg_witness :
    (buildDataset scenC1 1).toOption.map Dataset.latencies =
      some [some 10, some 5, none] ∧
    (0 : Int) ≤ 10 :=
  ⟨rfl, C5_latency_nonneg scenC1 1
    ⟨["0", "100", "500"], [1/2, 1, 0], [some 10, some 5, none], "U", "u",
      [0, 100, 500]⟩ rfl 0 10 rfl⟩

/-- C8: every output sequence has exactly one entry per input story, and a
story with zero valid rows still occupies its slot, with an empty views map
and the sentinel creation time. -/
theorem C8_empty_story_slot (files : List (List RawRow)) (target : Int)
    (d : Dataset) (h : buildDataset files target = Except.ok d) :
    d.x_labels.length = files.length ∧
    d.y_values.length = files.length ∧
    d.latencies.length = files.length ∧
    d.creation_times.length = files.length ∧
    (∀ (i : ℕ) (f : List RawRow), files[i]? = some f → readStoryCsv f = [] →
      (storyViews files)[i]? = some [] ∧
      d.creation_times[i]? = some sentinelTime) := by
  rw [buildDataset_ok h]
  have hct : (creationTimes files).length = files.length := by
    unfold creationTimes
    simp
  have hpairs : (classifiedPairs files target).length = files.length := by
    unfold classifiedPairs
    rw [length_classifyAll, List.length_zip, hct]
    have : (userViews files target).length = files.length := by
      unfold userViews storyViews
      simp
    rw [this]
    exact min_self _
  refine ⟨by simpa using hct, by simpa using hpairs, by simpa using hpairs,
    hct, ?_⟩
  intro i f hi hempty
  have hps : processStory f = ([], sentinelTime) := by
    unfold processStory
    rw [hempty]
    rfl
  constructor
  · unfold storyViews
    rw [List.getElem?_map, List.getElem?_map, hi]
    simp [hps]
  · show (creationTimes files)[i]? = some sentinelTime
    unfold creationTimes
    rw [List.getElem?_map, List.getElem?_map, hi]
    simp [hps]

/-- Witness for C8: a story whose only row is malformed keeps its slot with
sentinel creation time. -/
theorem C8_empty_story_slot_witness :
    (storyViews [[rr 1 "U" "u" 5], [⟨none, "", "", none⟩]])[1]? = some [] ∧
    (buildDataset [[rr 1 "U" "u" 5], [⟨none, "", "", none⟩]] 1).toOption.map
      (fun d => d.creation_times[1]?) = some (some sentinelTime) := by
  have h := (C8_empty_story_slot [[rr 1 "U" "u" 5], [⟨none, "", "", none⟩]] 1
    ⟨["5", formatLabel sentinelTime], [1, 0], [some 0, none], "U", "u",
      [5, sentinelTime]⟩ rfl).2.2.2.2 1 [⟨none, "", "", none⟩] rfl rfl
  exact ⟨h.1, by rw [show (buildDataset [[rr 1 "U" "u" 5],
    [⟨none, "", "", none⟩]] 1).toOption.map (fun d => d.creation_times[1]?) =
      some (some sentinelTime) from rfl]⟩

/-- C10: the skip threshold is always strictly positive, and a story whose
gap to the target's next view is defined and ≤ 0 is classified 0.5 (swiped
past) — no positivity filter is applied to the target's own gap. -/
theorem C10_nonpositive_gap_swiped (files : List (List RawRow)) (target : Int)
    (d : Dataset) (h : buildDataset files target = Except.ok d) :
    0 < (thresholds files).1 ∧
    ∀ (idx : ℕ) (v nv : Int),
      (userViews files target)[idx]? = some (some v) →
      (userViews files target)[idx + 1]? = some (some nv) →
      nv - v ≤ 0 →
      d.y_values[idx]? = some (1/2) := by
  refine ⟨thresholds_skip_pos files, ?_⟩
  intro idx v nv hv hnv hgap
  rw [buildDataset_ok h]
  show ((classifiedPairs files target).map Prod.fst)[idx]? = some (1/2)
  rw [List.getElem?_map]
  rw [userViews_eq, List.getElem?_map] at hv hnv
  cases hs : (files.map processStory)[idx]? with
  | none =>
    rw [hs] at hv
    cases hv
  | some st =>
    rw [hs] at hv
    have hdv : dictGet st.1 target = some v := Option.some.inj hv
    cases hs2 : (files.map processStory)[idx + 1]? with
    | none =>
      rw [hs2] at hnv
      cases hnv
    | some st2 =>
      rw [hs2] at hnv
      have hdv2 : dictGet st2.1 target = some nv := Option.some.inj hnv
      have hz : ((creationTimes files).zip (userViews files target))[idx]? =
          some (st.2, some v) := by
        rw [zipPairs_eq, List.getElem?_map, hs]
        simp [hdv]
      have hz2 : ((creationTimes files).zip
          (userViews files target))[idx + 1]? = some (st2.2, some nv) := by
        rw [zipPairs_eq, List.getElem?_map, hs2]
        simp [hdv2]
      have hnx : nextView
          ((creationTimes files).zip (userViews files target)) idx =
          some nv := by
        unfold nextView
        rw [hz2]
      unfold classifiedPairs
      rw [classifyAll_getElem? _ _ _ idx _ hz, hnx]
      show some (classifyGap (thresholds files).1 (thresholds files).2
        (some (nv - v))) = some (1/2)
      rw [show classifyGap (thresholds files).1 (thresholds files).2
          (some (nv - v)) =
          if nv - v ≤ (thresholds files).1 then (1/2 : ℚ)
          else if nv - v ≥ (thresholds files).2 then 1 else 3/4 from rfl]
      rw [if_pos (le_trans hgap (le_of_lt (thresholds_skip_pos files)))]

/-- Witness for C10: the target views two stories at the same instant (gap
0) while another viewer supplies the positive population gap 40; story 0 is
classified 0.5. -/
theorem C10_nonpositive_gap_swiped_witness :
    0 < (thresholds filesZeroGap).1 ∧
    (Dataset.mk ["0", "40"] [1/2, 1] [some 100, some 60] "U" "u"
      [0, 40]).y_values[0]? = some (1/2) :=
  ⟨(C10_nonpositive_gap_swiped filesZeroGap 1
      ⟨["0", "40"], [1/2, 1], [some 100, some 60], "U", "u", [0, 40]⟩
      rfl).1,
   (C10_nonpositive_gap_swiped filesZeroGap 1
      ⟨["0", "40"], [1/2, 1], [some 100, some 60], "U", "u", [0, 40]⟩
      rfl).2 0 100 100 rfl rfl (by norm_num)⟩

lemma isBracket_zero_iff (s e t : Int) (rest : List Int) :
    isBracket (s :: e :: rest) t 0 ↔ s ≤ t ∧ t ≤ e := by
  have g0 : (s :: e :: rest).getD 0 0 = s := rfl
  have g1 : (s :: e :: rest).getD (0 + 1) 0 = e := rfl
  have hl : 0 + 1 < (s :: e :: rest).length := by simp
  unfold isBracket
  rw [g0, g1]
  constructor
  · rintro ⟨_, h⟩
    exact h
  · intro h
    exact ⟨hl, h⟩

lemma isBracket_cons_succ (a : Int) (c : List Int) (t : Int) (k : ℕ) :
    isBracket (a :: c) t (k + 1) ↔ isBracket c t k := by
  unfold isBracket
  rw [List.getD_cons_succ, List.getD_cons_succ, List.length_cons]
  constructor
  · rintro ⟨h1, h2⟩
    exact ⟨by omega, h2⟩
  · rintro ⟨h1, h2⟩
    exact ⟨by omega, h2⟩

lemma fracAt_cons_succ (a : Int) (c : List Int) (t : Int) (k : ℕ) :
    fracAt (a :: c) t (k + 1) = fracAt c t k := by
  unfold fracAt
  rw [List.getD_cons_succ, List.getD_cons_succ]

lemma fracAt_zero (s e t : Int) (rest : List Int) :
    fracAt (s :: e :: rest) t 0 =
      if e = s then (1/2 : ℚ)
      else ((t - s : Int) : ℚ) / ((e - s : Int) : ℚ) := rfl

lemma bracketScan_none (t : Int) :
    ∀ (c : List Int) (i : ℕ), (∀ k, ¬ isBracket c t k) →
      bracketScan t i c = none := by
  intro c
  induction c with
  | nil =>
    intro i _
    rw [bracketScan]
  | cons s rest ih =>
    intro i hk
    cases rest with
    | nil => rw [bracketScan]
    | cons e rest2 =>
      rw [bracketScan]
      rw [if_neg (fun hc => hk 0 ((isBracket_zero_iff s e t rest2).mpr hc))]
      exact ih (i + 1) fun k hb =>
        hk (k + 1) ((isBracket_cons_succ s (e :: rest2) t k).mpr hb)

lemma bracketScan_first (t : Int) :
    ∀ (c : List Int) (k : ℕ), isBracket c t k →
      (∀ j, j < k → ¬ isBracket c t j) →
      ∀ i, bracketScan t i c = some (((i + k : ℕ) : ℚ) + fracAt c t k) := by
  intro c
  induction c with
  | nil =>
    intro k hk
    exact absurd hk.1 (by simp)
  | cons s rest ih =>
    intro k hk hmin i
    cases rest with
    | nil =>
      exact absurd hk.1 (by simp)
    | cons e rest2 =>
      by_cases h0 : s ≤ t ∧ t ≤ e
      · have hk0 : k = 0 := by
          by_contra hne
          exact hmin 0 (Nat.pos_of_ne_zero hne)
            ((isBracket_zero_iff s e t rest2).mpr h0)
        subst hk0
        rw [bracketScan, if_pos h0, fracAt_zero]
        norm_num
      · have hkpos : k ≠ 0 := by
          intro h0k
          subst h0k
          exact h0 ((isBracket_zero_iff s e t rest2).mp hk)
        obtain ⟨k', rfl⟩ := Nat.exists_eq_succ_of_ne_zero hkpos
        rw [bracketScan, if_neg h0, fracAt_cons_succ]
        rw [ih k' ((isBracket_cons_succ s (e :: rest2) t k').mp hk)
          (fun j hj hb => hmin (j + 1) (by omega)
            ((isBracket_cons_succ s (e :: rest2) t j).mpr hb)) (i + 1)]
        congr 1
        push_cast
        ring

/-- C3: the Landmark Positioner returns `−0.5` at or before the first
creation time; failing that, `N − 0.5` at or after the last; failing both,
`i + frac` for the first bracketing adjacent pair (with `frac = 0.5` for a
degenerate pair, handled inside `fracAt`); and `N − 0.5` when no adjacent
pair brackets the timestamp. -/
theorem C3_landmark_position (c : List Int) (t : Int) (_hne : ¬ c = []) :
    (t ≤ c.getD 0 0 → landmarkPos c t = -(1/2)) ∧
    (¬ t ≤ c.getD 0 0 → t ≥ c.getD (c.length - 1) 0 →
      landmarkPos c t = (c.length : ℚ) - 1/2) ∧
    (¬ t ≤ c.getD 0 0 → ¬ t ≥ c.getD (c.length - 1) 0 →
      ∀ i, isBracket c t i → (∀ j, j < i → ¬ isBracket c t j) →
        landmarkPos c t = (i : ℚ) + fracAt c t i) ∧
    (¬ t ≤ c.getD 0 0 → ¬ t ≥ c.getD (c.length - 1) 0 →
      (∀ k, ¬ isBracket c t k) →
      landmarkPos c t = (c.length : ℚ) - 1/2) := by
  refine ⟨?_, ?_, ?_, ?_⟩
  · intro h
    unfold landmarkPos
    rw [if_pos h]
  · intro h1 h2
    unfold landmarkPos
    rw [if_neg h1, if_pos h2]
  · intro h1 h2 i hb hmin
    unfold landmarkPos
    rw [if_neg h1, if_neg h2, bracketScan_first t c i hb hmin 0]
    simp
  · intro h1 h2 hnone
    unfold landmarkPos
    rw [if_neg h1, if_neg h2, bracketScan_none t c 0 hnone]
    rfl

/-- Witness for C3: the spec's landmark scenario — timestamp 50 between
creation times 0 and 100 lands at position `0 + 0.5`. -/
theorem C3_landmark_position_witness :
    landmarkPos [0, 100, 500] 50 = (0 : ℚ) + fracAt [0, 100, 500] 50 0 :=
  (C3_landmark_position [0, 100, 500] 50 (by decide)).2.2.1 (by decide)
    (by decide) 0 ⟨by decide, by decide, by decide⟩
    (fun j hj _ => absurd hj (Nat.not_lt_zero j))

end TgStories
